import Mathlib

/-!
Verification development for the contribution-ledger application (src/App.js).

The application keeps an in-memory list of contribution records inside the
UI component's state, together with the text-input fields and a transient
"currently editing" reference.  Every operation of the store
(`addOrUpdateContribution`, `editContribution`, `deleteContribution`, the
derived `sortedContributions` view and the derived `totalPayment` value, and
the persistence pair `saveContributions` / `loadContributions`) is translated
below into a pure Lean function over an explicit state record.

Modelling conventions:
* JavaScript strings are Lean `String`s; `localeCompare` on the ISO
  `YYYY-MM-DD` date strings produced by `formatDate` coincides with
  lexicographic comparison, which is `String.lt`.
* The component's `date : Date` state is modelled by the `YYYY-MM-DD` string
  `formatDate` would produce for it, since every use of the field goes
  through `formatDate`.  Callers that reset it to `new Date()` receive the
  current day as an explicit `today` argument, and `Date.now()` is an
  explicit `nowMs` argument.
* JavaScript numbers reached by this program are `parseFloat` results and
  their `+`-sums; they are modelled by `JsNum` in IEEE-754 binary64
  semantics: a finite double represented exactly as an integer multiple of
  `2^-1074`, or `NaN`, or a signed infinity.  `parseFloat` rounds the
  literal's decimal value to the nearest double and `+` rounds each exact
  partial sum back to the grid (round to nearest, ties to even, overflow to
  infinity), so the model reproduces the program's rounding, including its
  order-dependence.
* The persistence slot `AsyncStorage['@contributions']` is an
  `Option String`; `JSON.stringify` and `JSON.parse` are modelled at the
  character level for the precise shape of blob this program writes (an
  array of objects with the four string fields `id`, `name`, `payment`,
  `date`, in that key order, which is what `JSON.stringify` produces from
  the record literals in the source).
-/

/-- A contribution record as built in `addOrUpdateContribution`:
`{ id: Date.now().toString(), name, payment, date: formattedDate }`.
All four fields are JavaScript strings. -/
structure Contribution where
  id : String
  name : String
  payment : String
  date : String
deriving DecidableEq

/-- The component state of `App`: the two text inputs, the (formatted) date
input, the contribution list, and the `editingId` reference
(`null` modelled as `none`). -/
structure AppState where
  name : String
  payment : String
  date : String
  contributions : List Contribution
  editingId : Option String
deriving DecidableEq

/-- Initial component state: `useState('')` for both inputs, `new Date()`
(given as `today`), an empty list, and `editingId = null`. -/
def initialState (today : String) : AppState :=
  { name := "", payment := "", date := today, contributions := [], editingId := none }

/-- The `onChangeText={setName}` handler of the name input. -/
def setName (v : String) (s : AppState) : AppState :=
  { s with name := v }

/-- The `onChangeText={setPayment}` handler of the amount input. -/
def setPayment (v : String) (s : AppState) : AppState :=
  { s with payment := v }

/-- `addOrUpdateContribution` from src/App.js.  The guard `if (name && payment)`
is string truthiness: it succeeds iff both inputs are non-empty.  With
`editingId` set it maps over the list replacing every record whose `id`
matches (spread `{...item, name, payment, date}` keeps `id`), then clears
`editingId`; otherwise it appends a fresh record whose id is
`Date.now().toString()`.  In both branches it then resets the inputs and the
date. -/
def addOrUpdateContribution (nowMs : Nat) (today : String) (s : AppState) : AppState :=
  if s.name = "" ∨ s.payment = "" then s
  else
    match s.editingId with
    | some eid =>
      { name := "", payment := "", date := today,
        contributions := s.contributions.map (fun item =>
          if item.id = eid then
            { id := item.id, name := s.name, payment := s.payment, date := s.date }
          else item),
        editingId := none }
    | none =>
      { name := "", payment := "", date := today,
        contributions := s.contributions ++
          [{ id := toString nowMs, name := s.name, payment := s.payment, date := s.date }],
        editingId := none }

/-- `editContribution` from src/App.js: if a record with the id exists,
pre-fill the inputs from it and set `editingId`; otherwise do nothing.
(`new Date(contribution.date)` rendered back through `formatDate` is the
same `YYYY-MM-DD` string, so the date round-trips as the string itself.) -/
def editContribution (id : String) (s : AppState) : AppState :=
  match s.contributions.find? (fun item => item.id == id) with
  | some c =>
    { s with name := c.name, payment := c.payment, date := c.date, editingId := some c.id }
  | none => s

/-- `deleteContribution` from src/App.js:
`setContributions(contributions.filter((item) => item.id !== id))`.
Nothing else in the state is touched. -/
def deleteContribution (id : String) (s : AppState) : AppState :=
  { s with contributions := s.contributions.filter (fun item => item.id != id) }

/-- Insertion step of the stable descending sort: the element `a` moves past
every already-placed element with a strictly larger date and stops before the
first element whose date is not larger, so equal dates keep their relative
order.  This is the unique stable sort for the comparator
`(a, b) => b.date.localeCompare(a.date)` passed to `Array.prototype.sort`. -/
def orderedInsertDesc (a : Contribution) : List Contribution → List Contribution
  | [] => [a]
  | b :: l => if a.date < b.date then b :: orderedInsertDesc a l else a :: b :: l

/-- `sortedContributions` from src/App.js:
`[...contributions].sort((a, b) => b.date.localeCompare(a.date))` —
a stable sort by date, descending. -/
def sortedContributions : List Contribution → List Contribution
  | [] => []
  | a :: l => orderedInsertDesc a (sortedContributions l)

/-- A JavaScript number as this program can produce one, in IEEE-754
binary64 semantics.  Every finite double is an integer multiple of
`2^-1074` (the subnormal unit), so `num k` denotes the finite double with
exact value `k * 2^-1074`; `nan`, `inf` and `ninf` are `NaN` and the two
infinities.  Every `num` built below (by `jsParseFloat` or `JsNum.add`)
carries a value that is representable as a double: at most 53 significant
bits at its binade, magnitude below `2^1024`.  (`-0` and `0` are both
`num 0`; they are indistinguishable through `+` on this program's data and
through `toFixed(2)`.) -/
inductive JsNum where
  | num (k : Int)
  | nan
  | inf
  | ninf
deriving DecidableEq

/-- `⌊log2 n⌋` for `n < 256` (0 for inputs 0 and 1). -/
def log2Byte (n : Nat) : Nat :=
  if n < 2 then 0 else if n < 4 then 1 else if n < 8 then 2 else if n < 16 then 3
  else if n < 32 then 4 else if n < 64 then 5 else if n < 128 then 6 else 7

/-- `⌊log2 n⌋` for `n < 2^32`, byte by byte. -/
def log2Under32 (n : Nat) : Nat :=
  if n < 256 then log2Byte n
  else if n < 65536 then log2Byte (n / 256) + 8
  else if n < 16777216 then log2Byte (n / 65536) + 16
  else log2Byte (n / 16777216) + 24

/-- Floor of log2, dividing off 32 bits per step; the first argument is
fuel, and `n` itself is always (far more than) enough fuel. -/
def log2Fuel : Nat → Nat → Nat
  | 0, _ => 0
  | Nat.succ fuel, n =>
    if n < 4294967296 then log2Under32 n
    else log2Fuel fuel (n / 4294967296) + 32

/-- `⌊log2 n⌋` for `n ≥ 1` (and 0 for `n = 0`), executable by shallow
kernel reduction (unlike `Nat.log2`, which is compiled by well-founded
recursion and reduces one bit per step). -/
def natLog2 (n : Nat) : Nat := log2Fuel n n

/-- `2^n`, computed as `(2^32)^(n/32) * 2^(n%32)` so that every literal
exponent stays small enough for arithmetic folding
(`pow2_eq` below proves it equal to `2^n`). -/
def pow2 (n : Nat) : Nat := 4294967296 ^ (n / 32) * 2 ^ (n % 32)

/-- Round the exact value `k * 2^-1074` to the nearest IEEE-754 binary64
value, ties to even, overflowing to the appropriate infinity at or beyond
`2^1024`.  This is the rounding step of double addition: the exact sum of
two finite doubles is itself an integer multiple of `2^-1074`, so float
addition is exactly `roundIntToGrid (k1 + k2)`.  A magnitude of at most 53
bits is already representable (subnormals and the smallest normal binades
have unit spacing `2^-1074`); otherwise the value is rounded to 53
significant bits at its binade. -/
def roundIntToGrid (k : Int) : JsNum :=
  if k = 0 then JsNum.num 0
  else
    let a := k.natAbs
    let lg := natLog2 a
    if lg ≤ 52 then JsNum.num k
    else
      let sh := lg - 52
      let q := a / pow2 sh
      let r := a % pow2 sh
      let n := if 2 * r < pow2 sh then q
        else if pow2 sh < 2 * r then q + 1
        else if q % 2 = 0 then q else q + 1
      let a2 := n * pow2 sh
      if pow2 2098 ≤ a2 then (if k < 0 then JsNum.ninf else JsNum.inf)
      else if k < 0 then JsNum.num (-(a2 : Int)) else JsNum.num (a2 : Int)

/-- JavaScript `+` on `JsNum`: `NaN` is absorbing, `Infinity + -Infinity`
is `NaN`, an infinity absorbs finite values, and finite values add by
forming the exact sum on the `2^-1074` grid and rounding it to the nearest
double (ties to even, overflow to infinity). -/
def JsNum.add : JsNum → JsNum → JsNum
  | JsNum.nan, _ => JsNum.nan
  | _, JsNum.nan => JsNum.nan
  | JsNum.inf, JsNum.ninf => JsNum.nan
  | JsNum.ninf, JsNum.inf => JsNum.nan
  | JsNum.inf, _ => JsNum.inf
  | _, JsNum.inf => JsNum.inf
  | JsNum.ninf, _ => JsNum.ninf
  | _, JsNum.ninf => JsNum.ninf
  | JsNum.num a, JsNum.num b => roundIntToGrid (a + b)

/-- The whitespace characters skipped by `parseFloat` (ECMAScript
*StrWhiteSpaceChar*: tab, LF, VT, FF, CR, space, NBSP, BOM, and the Unicode
line separators; other Unicode `Zs` characters behave the same and do not
occur in this application's data). -/
def isJsWhitespace (c : Char) : Bool :=
  c.toNat == 32 || c.toNat == 9 || c.toNat == 10 || c.toNat == 11 ||
  c.toNat == 12 || c.toNat == 13 || c.toNat == 160 || c.toNat == 65279 ||
  c.toNat == 8232 || c.toNat == 8233

/-- Longest prefix of decimal digits, returned as digit values, with the
rest of the input. -/
def takeDigits : List Char → List Nat × List Char
  | [] => ([], [])
  | c :: cs =>
    if c.isDigit then
      let p := takeDigits cs
      ((c.toNat - 48) :: p.1, p.2)
    else ([], c :: cs)

/-- Value of a digit string read as a natural number. -/
def digitsToNat (ds : List Nat) : Nat :=
  ds.foldl (fun a d => a * 10 + d) 0

/-- Exponent digits after `e`/`E` and an optional sign; an `e` not followed
by at least one digit contributes exponent 0 (it is trailing garbage for
`parseFloat`, which takes the longest valid literal prefix). -/
def expAfterSign (neg : Bool) (cs : List Char) : Int :=
  let p := takeDigits cs
  if p.1 = [] then 0
  else if neg then -(digitsToNat p.1 : Int) else (digitsToNat p.1 : Int)

/-- Exponent value contributed by the input following the mantissa. -/
def expValue : List Char → Int
  | [] => 0
  | c :: rest =>
    if c = 'e' ∨ c = 'E' then
      match rest with
      | '+' :: cs2 => expAfterSign false cs2
      | '-' :: cs2 => expAfterSign true cs2
      | _ => expAfterSign false rest
    else 0

/-- Whether `2^e ≤ a / b` (for `b > 0`), by cross-multiplication. -/
def cmpPow2Le (e : Int) (a b : Nat) : Bool :=
  if 0 ≤ e then b * pow2 e.toNat ≤ a else b ≤ a * pow2 (-e).toNat

/-- Round the exact rational `a / b` (with `b > 0`), negated when `neg`, to
the nearest IEEE-754 binary64 value, ties to even.  The binade exponent
`⌊log2 (a/b)⌋` lies in `{natLog2 a - natLog2 b - 1, natLog2 a - natLog2 b}`
and is found by direct comparison; the significand is then the half-even
rounding of `(a/b) / 2^g` where `2^g` is the spacing of the target binade
(clamped to the subnormal spacing `2^-1074`), computed by integer division
with remainder comparison.  At or beyond `2^1024` the result overflows to
infinity.  This is the conversion ECMAScript applies to a decimal literal:
the exact mathematical value rounded to the nearest double. -/
def roundRatToGrid (neg : Bool) (a b : Nat) : JsNum :=
  if a = 0 then JsNum.num 0
  else
    let e0 : Int := (natLog2 a : Int) - (natLog2 b : Int)
    let eFloor : Int :=
      if cmpPow2Le (e0 + 1) a b then e0 + 1
      else if cmpPow2Le e0 a b then e0
      else e0 - 1
    let g : Int := max (eFloor - 52) (-1074)
    let num2 := if 0 ≤ g then a else a * pow2 (-g).toNat
    let den2 := if 0 ≤ g then b * pow2 g.toNat else b
    let q := num2 / den2
    let r := num2 % den2
    let n := if 2 * r < den2 then q
      else if den2 < 2 * r then q + 1
      else if q % 2 = 0 then q else q + 1
    let k := n * pow2 (g + 1074).toNat
    if pow2 2098 ≤ k then (if neg then JsNum.ninf else JsNum.inf)
    else if neg then JsNum.num (-(k : Int)) else JsNum.num (k : Int)

/-- Unsigned part of `parseFloat`: either the literal `Infinity`, or
`digits [. digits] [exponent]` needing at least one digit overall; anything
else is `NaN`.  Trailing garbage is ignored (longest-prefix semantics).
The digits denote the exact decimal value
`digitsToNat (intpart ++ fracpart) * 10^(exponent - |fracpart|)`, which is
then rounded to the nearest double. -/
def jsParseUnsigned (neg : Bool) (cs : List Char) : JsNum :=
  if (List.isPrefixOf (['I', 'n', 'f', 'i', 'n', 'i', 't', 'y']) cs) then
    if neg then JsNum.ninf else JsNum.inf
  else
    let ip := takeDigits cs
    let fp := match ip.2 with
      | '.' :: r => takeDigits r
      | _ => ([], ip.2)
    if ip.1 = [] ∧ fp.1 = [] then JsNum.nan
    else
      let scale : Int := expValue fp.2 - (fp.1.length : Int)
      let mant := digitsToNat (ip.1 ++ fp.1)
      if 0 ≤ scale then roundRatToGrid neg (mant * 10 ^ scale.toNat) 1
      else roundRatToGrid neg mant (10 ^ (-scale).toNat)

/-- ECMAScript `parseFloat`: skip leading whitespace, read an optional sign,
then the longest prefix that is a decimal literal or `Infinity`; `NaN` if
there is none; the literal's exact decimal value is rounded to the nearest
binary64 value. -/
def jsParseFloat (s : String) : JsNum :=
  let cs := s.data.dropWhile isJsWhitespace
  match cs with
  | '+' :: rest => jsParseUnsigned false rest
  | '-' :: rest => jsParseUnsigned true rest
  | _ => jsParseUnsigned false cs

/-- `totalPayment` from src/App.js:
`contributions.reduce((sum, item) => sum + parseFloat(item.payment), 0)`. -/
def totalPayment (l : List Contribution) : JsNum :=
  l.foldl (fun sum item => sum.add (jsParseFloat item.payment)) (JsNum.num 0)

/-- The number of cents shown by the rendered string
`totalPayment.toFixed(2)` when the total is finite (`toFixed` picks the
integer `n` minimizing `|n/100 - x|`, the larger `n` on a tie, which is
`⌊100x + 1/2⌋`; here `x = k * 2^-1074`, so that floor is the floor division
`(100k + 2^1073) fdiv 2^1074`); `none` when the total is `NaN` or infinite
(rendered as `NaN` / `Infinity`). -/
def displayedTotalCents (l : List Contribution) : Option Int :=
  match totalPayment l with
  | JsNum.num k => some (Int.fdiv (k * 100 + (pow2 1073 : Nat)) ((pow2 1074 : Nat) : Int))
  | _ => none

/-- The state reached from the initial state by typing and adding the
amounts "1e20", "1", "-1e20" in that order (timestamps 1, 2, 3). -/
def addSeqA : AppState :=
  addOrUpdateContribution 3 ("2024-01-04")
    (setPayment ("-1e20") (setName ("C")
      (addOrUpdateContribution 2 ("2024-01-03")
        (setPayment ("1") (setName ("B")
          (addOrUpdateContribution 1 ("2024-01-02")
            (setPayment ("1e20") (setName ("A")
              (initialState ("2024-01-01"))))))))))

/-- The state reached from the initial state by typing and adding the same
amounts in the order "1e20", "-1e20", "1" (timestamps 1, 2, 3). -/
def addSeqB : AppState :=
  addOrUpdateContribution 3 ("2024-01-04")
    (setPayment ("1") (setName ("C")
      (addOrUpdateContribution 2 ("2024-01-03")
        (setPayment ("-1e20") (setName ("B")
          (addOrUpdateContribution 1 ("2024-01-02")
            (setPayment ("1e20") (setName ("A")
              (initialState ("2024-01-01"))))))))))

/-- Lowercase hexadecimal digit, as `JSON.stringify` emits in `\u00XX`
escapes. -/
def hexDigitChar (n : Nat) : Char :=
  if n < 10 then Char.ofNat (48 + n) else Char.ofNat (87 + n)

/-- `JSON.stringify`'s encoding of one character inside a string literal:
quote and backslash get a two-character escape, the five named control
characters get their short escapes, the remaining control characters get
`\u00XX`, and everything else is emitted verbatim. -/
def encodeChar (c : Char) : List Char :=
  if c = '"' then ['\\', '"']
  else if c = '\\' then ['\\', '\\']
  else if c.toNat = 8 then ['\\', 'b']
  else if c.toNat = 9 then ['\\', 't']
  else if c.toNat = 10 then ['\\', 'n']
  else if c.toNat = 12 then ['\\', 'f']
  else if c.toNat = 13 then ['\\', 'r']
  else if c.toNat < 32 then
    ['\\', 'u', '0', '0', hexDigitChar (c.toNat / 16), hexDigitChar (c.toNat % 16)]
  else [c]

/-- Escaped body of a JSON string literal. -/
def escChars : List Char → List Char
  | [] => []
  | c :: cs => encodeChar c ++ escChars cs

/-- A full JSON string literal, quotes included. -/
def encodeString (s : String) : List Char :=
  '"' :: (escChars s.data ++ ['"'])

/-- The characters `"id":` opening the first key of a serialized record. -/
def keyId : List Char := ['"', 'i', 'd', '"', ':']

/-- The characters `,"name":` between the first and second fields. -/
def keyName : List Char := [',', '"', 'n', 'a', 'm', 'e', '"', ':']

/-- The characters `,"payment":` between the second and third fields. -/
def keyPayment : List Char := [',', '"', 'p', 'a', 'y', 'm', 'e', 'n', 't', '"', ':']

/-- The characters `,"date":` between the third and fourth fields. -/
def keyDate : List Char := [',', '"', 'd', 'a', 't', 'e', '"', ':']

/-- `JSON.stringify`'s output for one record: the four string fields in the
key order `id`, `name`, `payment`, `date` in which the source's object
literals declare them. -/
def encodeContribution (c : Contribution) : List Char :=
  '\x7b' :: (keyId ++ encodeString c.id ++ keyName ++ encodeString c.name ++
    keyPayment ++ encodeString c.payment ++ keyDate ++ encodeString c.date ++ ['\x7d'])

/-- Comma-separated serialized records. -/
def encodeItems : List Contribution → List Char
  | [] => []
  | [c] => encodeContribution c
  | c :: cs => encodeContribution c ++ ',' :: encodeItems cs

/-- `JSON.stringify(contributions)`: the serialized array. -/
def stringifyContributions (l : List Contribution) : String :=
  ⟨'[' :: (encodeItems l ++ [']'])⟩

/-- Value of one hexadecimal digit character. -/
def hexVal (c : Char) : Option Nat :=
  if 48 ≤ c.toNat ∧ c.toNat ≤ 57 then some (c.toNat - 48)
  else if 97 ≤ c.toNat ∧ c.toNat ≤ 102 then some (c.toNat - 87)
  else if 65 ≤ c.toNat ∧ c.toNat ≤ 70 then some (c.toNat - 55)
  else none

/-- Prepend a decoded character to a string-body parse result. -/
def consFst (c : Char) : Option (List Char × List Char) → Option (List Char × List Char)
  | some p => some (c :: p.1, p.2)
  | none => none

/-- One step of `JSON.parse`'s reading of a string literal body:
`some (none, rest)` is the closing quote, `some (some c, rest)` is one
decoded character (escape sequences are decoded, `\uXXXX` escapes decode
their code point — a code point that is not a Unicode scalar value is
rejected here; Lean strings cannot carry the lone surrogates JavaScript
would produce, and this program never writes them), and `none` is a parse
error (end of input or a raw control character). -/
def readTok (cs : List Char) : Option (Option Char × List Char) :=
  match cs with
  | [] => none
  | c :: rest =>
    if c = '"' then some (none, rest)
    else if c = '\\' then
      match rest with
      | [] => none
      | e :: rest2 =>
        if e = '"' then some (some '"', rest2)
        else if e = '\\' then some (some '\\', rest2)
        else if e = '/' then some (some '/', rest2)
        else if e = 'b' then some (some (Char.ofNat 8), rest2)
        else if e = 'f' then some (some (Char.ofNat 12), rest2)
        else if e = 'n' then some (some (Char.ofNat 10), rest2)
        else if e = 'r' then some (some (Char.ofNat 13), rest2)
        else if e = 't' then some (some (Char.ofNat 9), rest2)
        else if e = 'u' then
          match rest2 with
          | d1 :: d2 :: d3 :: d4 :: rest3 =>
            match hexVal d1, hexVal d2, hexVal d3, hexVal d4 with
            | some a, some b, some c2, some d =>
              let n := ((a * 16 + b) * 16 + c2) * 16 + d
              if Nat.isValidChar n then some (some (Char.ofNat n), rest3)
              else none
            | _, _, _, _ => none
          | _ => none
        else none
    else if c.toNat < 32 then none
    else some (some c, rest)

/-- String-literal body reader: iterate `readTok` until the closing quote.
The fuel only bounds the number of characters decoded; each step consumes
at least one input character, so any fuel above the input length is
enough. -/
def parseStrLoop : Nat → List Char → Option (List Char × List Char)
  | 0, _ => none
  | Nat.succ fuel, cs =>
    match readTok cs with
    | some (none, rest) => some ([], rest)
    | some (some c, rest) => consFst c (parseStrLoop fuel rest)
    | none => none

/-- `JSON.parse`'s reading of a string literal body up to and including the
closing quote. -/
def parseStringBody (cs : List Char) : Option (List Char × List Char) :=
  parseStrLoop (cs.length + 1) cs

/-- Consume an expected literal sequence of characters. -/
def expectChars : List Char → List Char → Option (List Char)
  | [], cs => some cs
  | _ :: _, [] => none
  | p :: ps, c :: cs => if c = p then expectChars ps cs else none

/-- Consume a literal key sequence followed by a JSON string literal,
returning the decoded characters and the rest of the input. -/
def parseStringAfter (pre : List Char) (cs : List Char) : Option (List Char × List Char) :=
  match expectChars pre cs with
  | some ('"' :: r) => parseStringBody r
  | _ => none

/-- Parse one serialized record in the exact shape `stringifyContributions`
writes (this is the blob format of this program; the general tolerance of
`JSON.parse` for whitespace and key reordering is never exercised by data
the program itself has saved). -/
def parseRecord (cs : List Char) : Option (Contribution × List Char) :=
  match cs with
  | '\x7b' :: r0 =>
    match parseStringAfter keyId r0 with
    | some (idS, r1) =>
      match parseStringAfter keyName r1 with
      | some (nameS, r2) =>
        match parseStringAfter keyPayment r2 with
        | some (payS, r3) =>
          match parseStringAfter keyDate r3 with
          | some (dateS, r4) =>
            match r4 with
            | '\x7d' :: r5 => some (⟨⟨idS⟩, ⟨nameS⟩, ⟨payS⟩, ⟨dateS⟩⟩, r5)
            | _ => none
          | none => none
        | none => none
      | none => none
    | none => none
  | _ => none

/-- Parse a comma-separated sequence of records up to and including the
closing bracket.  The fuel argument only bounds the number of records; any
fuel at least the record count gives the same answer. -/
def parseItems : Nat → List Char → Option (List Contribution × List Char)
  | 0, _ => none
  | Nat.succ fuel, cs =>
    match parseRecord cs with
    | some (c, r) =>
      match r with
      | ',' :: r2 =>
        match parseItems fuel r2 with
        | some p => some (c :: p.1, p.2)
        | none => none
      | ']' :: r2 => some ([c], r2)
      | _ => none
    | none => none

/-- Parse a serialized contribution array from raw characters. -/
def parseContribData : List Char → Option (List Contribution)
  | '[' :: rest =>
    if rest = [']'] then some []
    else
      match parseItems rest.length rest with
      | some (l, r) => if r = [] then some l else none
      | none => none
  | _ => none

/-- `JSON.parse` applied to a stored snapshot, specialized to the layout
this program writes; `none` is the thrown `SyntaxError`. -/
def parseContributions (s : String) : Option (List Contribution) :=
  parseContribData s.data

/-- The load effect from src/App.js: a missing slot leaves the initial empty
list, a parse error is caught and logged leaving the empty list, and a
parsed snapshot becomes the collection. -/
def loadContributions (stored : Option String) : List Contribution :=
  match stored with
  | none => []
  | some s =>
    match parseContributions s with
    | some l => l
    | none => []

/-- The save effect from src/App.js: the slot holds
`JSON.stringify(contributions)` after every mutation. -/
def saveContributions (l : List Contribution) : Option String :=
  some (stringifyContributions l)

theorem orderedInsertDesc_perm (a : Contribution) (l : List Contribution) :
    List.Perm (orderedInsertDesc a l) (a :: l) := by
  induction l with
  | nil => simp [orderedInsertDesc]
  | cons b l ih =>
    by_cases h : a.date < b.date
    · simp only [orderedInsertDesc, if_pos h]
      exact (List.Perm.cons b ih).trans (List.Perm.swap a b l)
    · simp only [orderedInsertDesc]
      rw [if_neg h]

theorem sortedContributions_perm (l : List Contribution) :
    List.Perm (sortedContributions l) l := by
  induction l with
  | nil => simp [sortedContributions]
  | cons a l ih =>
    exact (orderedInsertDesc_perm a (sortedContributions l)).trans (List.Perm.cons a ih)

theorem pairwise_orderedInsertDesc {a : Contribution} {l : List Contribution}
    (h : l.Pairwise (fun x y => y.date ≤ x.date)) :
    (orderedInsertDesc a l).Pairwise (fun x y => y.date ≤ x.date) := by
  induction l with
  | nil => simp [orderedInsertDesc]
  | cons b l ih =>
    have h1 := List.pairwise_cons.mp h
    by_cases hd : a.date < b.date
    · simp only [orderedInsertDesc, if_pos hd]
      rw [List.pairwise_cons]
      refine ⟨?_, ih h1.2⟩
      intro y hy
      rcases List.mem_cons.mp ((orderedInsertDesc_perm a l).mem_iff.mp hy) with h2 | h2
      · subst h2; exact le_of_lt hd
      · exact h1.1 y h2
    · simp only [orderedInsertDesc, if_neg hd]
      rw [List.pairwise_cons]
      refine ⟨?_, h⟩
      intro y hy
      rcases List.mem_cons.mp hy with h2 | h2
      · subst h2; exact not_lt.mp hd
      · exact le_trans (h1.1 y h2) (not_lt.mp hd)

theorem sortedContributions_pairwise (l : List Contribution) :
    (sortedContributions l).Pairwise (fun x y => y.date ≤ x.date) := by
  induction l with
  | nil => simp [sortedContributions]
  | cons a l ih =>
    simp only [sortedContributions]
    exact pairwise_orderedInsertDesc ih

theorem filter_orderedInsertDesc_self (a : Contribution) (l : List Contribution) :
    (orderedInsertDesc a l).filter (fun c => c.date == a.date) =
      a :: l.filter (fun c => c.date == a.date) := by
  induction l with
  | nil => simp [orderedInsertDesc]
  | cons b l ih =>
    by_cases hd : a.date < b.date
    · have hne : b.date ≠ a.date := by
        intro he
        rw [he] at hd
        exact lt_irrefl _ hd
      have hb : (b.date == a.date) = false := beq_eq_false_iff_ne.mpr hne
      simp only [orderedInsertDesc, if_pos hd, List.filter_cons, hb]
      simpa [hb] using ih
    · simp only [orderedInsertDesc]
      rw [if_neg hd, List.filter_cons]
      simp

theorem filter_orderedInsertDesc_ne (a : Contribution) (l : List Contribution) (d : String)
    (hne : a.date ≠ d) :
    (orderedInsertDesc a l).filter (fun c => c.date == d) =
      l.filter (fun c => c.date == d) := by
  have ha : (a.date == d) = false := beq_eq_false_iff_ne.mpr hne
  induction l with
  | nil => simp [orderedInsertDesc, ha]
  | cons b l ih =>
    by_cases hd : a.date < b.date
    · simp only [orderedInsertDesc, if_pos hd, List.filter_cons]
      rw [ih]
    · simp only [orderedInsertDesc, if_neg hd, List.filter_cons, ha]
      simp

theorem sortedContributions_filter (l : List Contribution) (d : String) :
    (sortedContributions l).filter (fun c => c.date == d) =
      l.filter (fun c => c.date == d) := by
  induction l with
  | nil => rfl
  | cons a l ih =>
    by_cases hd : a.date = d
    · subst hd
      simp only [sortedContributions]
      rw [filter_orderedInsertDesc_self a (sortedContributions l), ih, List.filter_cons]
      simp
    · have ha : (a.date == d) = false := beq_eq_false_iff_ne.mpr hd
      simp only [sortedContributions]
      rw [filter_orderedInsertDesc_ne a (sortedContributions l) d hd, ih, List.filter_cons, ha]
      simp

theorem hexVal_hexDigitChar : ∀ k, k < 16 → hexVal (hexDigitChar k) = some k := by decide

theorem expectChars_append (p r : List Char) : expectChars p (p ++ r) = some r := by
  induction p with
  | nil => rfl
  | cons c p ih => simp [expectChars, ih]

theorem readTok_encodeChar (c : Char) (X : List Char) :
    readTok (encodeChar c ++ X) = some (some c, X) := by
  by_cases h1 : c = '"'
  · subst h1; rfl
  · by_cases h2 : c = '\\'
    · subst h2
      simp only [encodeChar, if_neg h1, if_pos rfl, List.cons_append, List.nil_append]
      rfl
    · by_cases h32 : c.toNat < 32
      · obtain ⟨k, hk⟩ : ∃ k, c.toNat = k := ⟨c.toNat, rfl⟩
        have hck : c = Char.ofNat k := by rw [← hk, Char.ofNat_toNat]
        rw [hk] at h32
        rw [hck]
        interval_cases k <;> rfl
      · have h8 : ¬ c.toNat = 8 := by omega
        have h9 : ¬ c.toNat = 9 := by omega
        have h10 : ¬ c.toNat = 10 := by omega
        have h12 : ¬ c.toNat = 12 := by omega
        have h13 : ¬ c.toNat = 13 := by omega
        simp only [encodeChar, if_neg h1, if_neg h2, if_neg h8, if_neg h9, if_neg h10,
          if_neg h12, if_neg h13, if_neg h32, List.cons_append, List.nil_append]
        simp only [readTok]
        rw [if_neg h1, if_neg h2, if_neg h32]

theorem escChars_length (s : List Char) : s.length ≤ (escChars s).length := by
  induction s with
  | nil => simp [escChars]
  | cons c s ih =>
    have h1 : 1 ≤ (encodeChar c).length := by
      by_cases h : c = '"'
      · subst h; simp [encodeChar]
      · by_cases h2 : c = '\\'
        · subst h2; simp [encodeChar]
        · simp only [encodeChar, if_neg h, if_neg h2]
          by_cases h8 : c.toNat = 8
          · simp [if_pos h8]
          · by_cases h9 : c.toNat = 9
            · simp [if_neg h8, if_pos h9]
            · by_cases h10 : c.toNat = 10
              · simp [if_neg h8, if_neg h9, if_pos h10]
              · by_cases h12 : c.toNat = 12
                · simp [if_neg h8, if_neg h9, if_neg h10, if_pos h12]
                · by_cases h13 : c.toNat = 13
                  · simp [if_neg h8, if_neg h9, if_neg h10, if_neg h12, if_pos h13]
                  · by_cases h32 : c.toNat < 32
                    · simp [if_neg h8, if_neg h9, if_neg h10, if_neg h12, if_neg h13,
                        if_pos h32]
                    · simp [if_neg h8, if_neg h9, if_neg h10, if_neg h12, if_neg h13,
                        if_neg h32]
    simp only [escChars, List.length_cons, List.length_append]
    omega

theorem parseStrLoop_escChars :
    ∀ (s : List Char) (fuel : Nat) (rest : List Char),
      s.length + 1 ≤ fuel →
      parseStrLoop fuel (escChars s ++ '"' :: rest) = some (s, rest) := by
  intro s
  induction s with
  | nil =>
    intro fuel rest hf
    obtain ⟨f, rfl⟩ : ∃ f, fuel = f + 1 := ⟨fuel - 1, by omega⟩
    simp only [escChars, List.nil_append, parseStrLoop]
    have hs : readTok ('"' :: rest) = some (none, rest) := rfl
    rw [hs]
  | cons c s ih =>
    intro fuel rest hf
    obtain ⟨f, rfl⟩ : ∃ f, fuel = f + 1 := ⟨fuel - 1, by omega⟩
    rw [escChars, List.append_assoc]
    simp only [parseStrLoop]
    rw [readTok_encodeChar]
    show consFst c (parseStrLoop f (escChars s ++ '"' :: rest)) = some (c :: s, rest)
    rw [ih f rest (by simp only [List.length_cons] at hf; omega)]
    rfl

theorem parseStringBody_escChars (s rest : List Char) :
    parseStringBody (escChars s ++ '"' :: rest) = some (s, rest) := by
  apply parseStrLoop_escChars
  have h := escChars_length s
  simp only [List.length_append, List.length_cons]
  omega

theorem parseStringAfter_roundtrip (pre : List Char) (str : String) (rest : List Char) :
    parseStringAfter pre (pre ++ (encodeString str ++ rest)) = some (str.data, rest) := by
  simp only [parseStringAfter, encodeString, List.cons_append, List.append_assoc,
    List.singleton_append]
  rw [expectChars_append]
  simp only []
  rw [parseStringBody_escChars]
  simp

theorem parseRecord_roundtrip (c : Contribution) (rest : List Char) :
    parseRecord (encodeContribution c ++ rest) = some (c, rest) := by
  simp only [encodeContribution, List.cons_append, List.append_assoc, List.singleton_append]
  simp only [parseRecord]
  rw [parseStringAfter_roundtrip keyId c.id]
  simp only []
  rw [parseStringAfter_roundtrip keyName c.name]
  simp only []
  rw [parseStringAfter_roundtrip keyPayment c.payment]
  simp only []
  rw [parseStringAfter_roundtrip keyDate c.date]
  rfl

theorem encodeItems_length (l : List Contribution) : l.length ≤ (encodeItems l).length := by
  induction l with
  | nil => simp [encodeItems]
  | cons c cs ih =>
    cases cs with
    | nil => simp [encodeItems, encodeContribution]
    | cons c2 cs2 =>
      simp only [encodeItems, List.length_append, List.length_cons, List.length_nil] at ih ⊢
      have hc : 1 ≤ (encodeContribution c).length := by simp [encodeContribution]
      omega

theorem encodeItems_cons_shape (c : Contribution) (cs : List Contribution) :
    ∃ t, encodeItems (c :: cs) = '\x7b' :: t := by
  cases cs with
  | nil => exact ⟨_, rfl⟩
  | cons c2 cs2 => exact ⟨_, rfl⟩

theorem parseItems_roundtrip :
    ∀ (l : List Contribution) (fuel : Nat) (rest : List Char),
      l ≠ [] → l.length ≤ fuel →
      parseItems fuel (encodeItems l ++ ']' :: rest) = some (l, rest) := by
  intro l
  induction l with
  | nil => intro fuel rest h; exact absurd rfl h
  | cons c cs ih =>
    intro fuel rest _ hf
    obtain ⟨f, rfl⟩ : ∃ f, fuel = f + 1 := ⟨fuel - 1, by simp at hf; omega⟩
    cases cs with
    | nil =>
      simp only [encodeItems]
      simp only [parseItems]
      rw [parseRecord_roundtrip]
      rfl
    | cons c2 cs2 =>
      simp only [encodeItems, List.append_assoc, List.cons_append]
      simp only [parseItems]
      rw [parseRecord_roundtrip]
      show (match parseItems f (encodeItems (c2 :: cs2) ++ ']' :: rest) with
        | some p => some (c :: p.1, p.2)
        | none => none) = some (c :: c2 :: cs2, rest)
      rw [ih f rest (by simp) (by simp only [List.length_cons] at hf ⊢; omega)]

theorem parseContributions_stringify (l : List Contribution) :
    parseContributions (stringifyContributions l) = some l := by
  cases l with
  | nil => rfl
  | cons c cs =>
    show parseContribData ('[' :: (encodeItems (c :: cs) ++ [']'])) = some (c :: cs)
    obtain ⟨t, ht⟩ := encodeItems_cons_shape c cs
    have hne : ¬ (encodeItems (c :: cs) ++ [']'] = [']']) := by
      rw [ht]
      simp
    have hfuel : (c :: cs).length ≤ (encodeItems (c :: cs) ++ [']']).length := by
      have h2 := encodeItems_length (c :: cs)
      simp only [List.length_cons] at h2
      simp only [List.length_append, List.length_cons, List.length_singleton]
      omega
    show (if encodeItems (c :: cs) ++ [']'] = [']'] then some [] else
      match parseItems (encodeItems (c :: cs) ++ [']']).length (encodeItems (c :: cs) ++ [']']) with
      | some (l, r) => if r = [] then some l else none
      | none => none) = some (c :: cs)
    rw [if_neg hne]
    rw [show encodeItems (c :: cs) ++ [']'] = encodeItems (c :: cs) ++ ']' :: [] from rfl]
    rw [parseItems_roundtrip (c :: cs) _ [] (by simp) hfuel]
    rfl

theorem loadContributions_save (l : List Contribution) :
    loadContributions (saveContributions l) = l := by
  simp only [loadContributions, saveContributions]
  rw [parseContributions_stringify]

theorem map_update_not_mem (l : List Contribution) (eid n p d : String)
    (h : eid ∉ l.map Contribution.id) :
    l.map (fun item => if item.id = eid then
      { id := item.id, name := n, payment := p, date := d } else item) = l := by
  induction l with
  | nil => rfl
  | cons c l ih =>
    have h' := h
    rw [List.map_cons, List.mem_cons] at h'
    push_neg at h'
    have h1 : ¬ (c.id = eid) := fun he => h'.1 he.symm
    rw [List.map_cons, if_neg h1, ih h'.2]

theorem not_mem_filter_ids (l : List Contribution) (eid : String) :
    eid ∉ (l.filter (fun item => item.id != eid)).map Contribution.id := by
  intro hm
  rcases List.mem_map.mp hm with ⟨c, hc, hcid⟩
  have hp := List.of_mem_filter hc
  rw [bne_iff_ne] at hp
  exact hp hcid

theorem filter_all_ne (l : List Contribution) (rid : String) :
    (l.filter (fun item => item.id != rid)).all (fun c => c.id != rid) = true := by
  rw [List.all_eq_true]
  intro c hc
  exact (List.mem_filter.mp hc).2

theorem sorted_all_ne (l : List Contribution) (rid : String)
    (h : l.all (fun c => c.id != rid) = true) :
    (sortedContributions l).all (fun c => c.id != rid) = true := by
  rw [List.all_eq_true] at h ⊢
  intro c hc
  exact h c ((sortedContributions_perm l).mem_iff.mp hc)

theorem add_appends (nowMs : Nat) (today : String) (s : AppState)
    (h1 : s.editingId = none) (h2 : s.name ≠ "") (h3 : s.payment ≠ "") :
    (addOrUpdateContribution nowMs today s).contributions =
      s.contributions ++
        [{ id := toString nowMs, name := s.name, payment := s.payment, date := s.date }] := by
  simp only [addOrUpdateContribution]
  rw [if_neg (by simp [h2, h3]), h1]

theorem update_contributions_map (nowMs : Nat) (today : String) (s : AppState) (eid : String)
    (h1 : s.editingId = some eid) (h2 : s.name ≠ "") (h3 : s.payment ≠ "") :
    (addOrUpdateContribution nowMs today s).contributions =
      s.contributions.map (fun item => if item.id = eid then
        { id := item.id, name := s.name, payment := s.payment, date := s.date } else item) ∧
    (addOrUpdateContribution nowMs today s).editingId = none := by
  simp only [addOrUpdateContribution]
  rw [if_neg (by simp [h2, h3]), h1]
  exact ⟨rfl, rfl⟩

theorem update_missing_id (nowMs : Nat) (today : String) (s : AppState) (eid : String)
    (h1 : s.editingId = some eid) (h2 : eid ∉ s.contributions.map Contribution.id)
    (h3 : s.name ≠ "") (h4 : s.payment ≠ "") :
    (addOrUpdateContribution nowMs today s).contributions = s.contributions ∧
    (addOrUpdateContribution nowMs today s).editingId = none := by
  have h := update_contributions_map nowMs today s eid h1 h3 h4
  refine ⟨?_, h.2⟩
  rw [h.1]
  exact map_update_not_mem s.contributions eid s.name s.payment s.date h2

/-- C1: the claim states that a non-empty `name` with a non-empty `amount`
string that does not parse as a non-negative decimal is rejected with no
mutation and no save.  Counterexample: with name `"A"` and amount `"abc"`
(`parseFloat` gives `NaN`), `addOrUpdateContribution` appends the record
anyway, and since the collection changed the persistence effect writes a
different snapshot. -/
theorem C1_counterexample :
    jsParseFloat ("abc") = JsNum.nan ∧
    (addOrUpdateContribution 0 ("2024-01-02")
      { name := "A", payment := "abc", date := "2024-01-01", contributions := [],
        editingId := none }).contributions =
      [{ id := "0", name := "A", payment := "abc", date := "2024-01-01" }] ∧
    saveContributions (addOrUpdateContribution 0 ("2024-01-02")
      { name := "A", payment := "abc", date := "2024-01-01", contributions := [],
        editingId := none }).contributions ≠ saveContributions [] := by
  refine ⟨by decide, by decide, by decide⟩

/-- C1 (amended): `addOrUpdateContribution` rejects an operation only when
the name or the amount string is empty — then the state is entirely
unchanged, so no persistence save is triggered; any non-empty amount
string, numeric or not, is accepted, and an add then appends the record
built from the inputs. -/
theorem C1_reject_iff_empty (nowMs : Nat) (today : String) (s : AppState) :
    ((s.name = "" ∨ s.payment = "") → addOrUpdateContribution nowMs today s = s) ∧
    (s.name ≠ "" → s.payment ≠ "" → s.editingId = none →
      (addOrUpdateContribution nowMs today s).contributions =
        s.contributions ++
          [{ id := toString nowMs, name := s.name, payment := s.payment,
             date := s.date }]) := by
  constructor
  · intro h
    simp only [addOrUpdateContribution]
    rw [if_pos h]
  · intro h1 h2 h3
    exact add_appends nowMs today s h3 h1 h2

/-- C1 witness: an empty name is rejected with the state unchanged, and a
filled form is accepted and appended. -/
theorem C1_reject_iff_empty_witness :
    addOrUpdateContribution 3 ("2024-01-02")
      { name := "", payment := "5", date := "2024-01-01", contributions := [],
        editingId := none } =
      { name := "", payment := "5", date := "2024-01-01", contributions := [],
        editingId := none } ∧
    (addOrUpdateContribution 3 ("2024-01-02")
      { name := "B", payment := "7", date := "2024-01-01", contributions := [],
        editingId := none }).contributions =
      [] ++ [{ id := toString 3, name := "B", payment := "7", date := "2024-01-01" }] :=
  ⟨(C1_reject_iff_empty 3 ("2024-01-02") _).1 (Or.inl rfl),
   (C1_reject_iff_empty 3 ("2024-01-02") _).2 (by decide) (by decide) rfl⟩

/-- C2: the claim states that an update whose id is absent fails with
`NotFound` reported to the caller.  Counterexample: with `editingId = "99"`
and no record with id `"99"`, `addOrUpdateContribution` completes exactly
like a successful update — the operation has no error outcome of any kind
(its result is just the next state): it clears the inputs and the editing
reference and leaves the collection untouched, indistinguishable from
success. -/
theorem C2_counterexample :
    addOrUpdateContribution 0 ("2024-01-03")
      { name := "A", payment := "1", date := "2024-01-01",
        contributions := [{ id := "7", name := "X", payment := "2", date := "2024-01-02" }],
        editingId := some ("99") } =
      { name := "", payment := "", date := "2024-01-03",
        contributions := [{ id := "7", name := "X", payment := "2", date := "2024-01-02" }],
        editingId := none } := by decide

/-- C2 (amended): an update referencing an id not present in the collection
is silently ignored: the collection is unchanged, no error is produced
(the operation is total and returns only the next state), and the editing
reference is cleared as if the update had succeeded. -/
theorem C2_update_missing_id (nowMs : Nat) (today : String) (s : AppState) (eid : String)
    (h1 : s.editingId = some eid) (h2 : eid ∉ s.contributions.map Contribution.id)
    (h3 : s.name ≠ "") (h4 : s.payment ≠ "") :
    (addOrUpdateContribution nowMs today s).contributions = s.contributions ∧
    (addOrUpdateContribution nowMs today s).editingId = none :=
  update_missing_id nowMs today s eid h1 h2 h3 h4

/-- C2 witness: concrete dangling update leaving the single record intact. -/
theorem C2_update_missing_id_witness :
    (addOrUpdateContribution 0 ("2024-01-03")
      { name := "A", payment := "1", date := "2024-01-01",
        contributions := [{ id := "7", name := "X", payment := "2", date := "2024-01-02" }],
        editingId := some ("99") }).contributions =
      [{ id := "7", name := "X", payment := "2", date := "2024-01-02" }] ∧
    (addOrUpdateContribution 0 ("2024-01-03")
      { name := "A", payment := "1", date := "2024-01-01",
        contributions := [{ id := "7", name := "X", payment := "2", date := "2024-01-02" }],
        editingId := some ("99") }).editingId = none :=
  C2_update_missing_id 0 ("2024-01-03") _ ("99") rfl (by decide) (by decide) (by decide)

/-- C3: the claim states that after `remove(id)` the list no longer contains
the id, and that a second remove fails with `NotFound`.  Counterexample for
the second half: a second `deleteContribution` with the same id is the
identity on the state — the operation is a total function with no failure
outcome, so no `NotFound` is ever produced. -/
theorem C3_counterexample :
    (deleteContribution ("1")
      { name := "", payment := "", date := "2024-01-01",
        contributions := [{ id := "1", name := "X", payment := "2", date := "2024-01-02" }],
        editingId := none }).contributions = [] ∧
    deleteContribution ("1") (deleteContribution ("1")
      { name := "", payment := "", date := "2024-01-01",
        contributions := [{ id := "1", name := "X", payment := "2", date := "2024-01-02" }],
        editingId := none }) =
      deleteContribution ("1")
      { name := "", payment := "", date := "2024-01-01",
        contributions := [{ id := "1", name := "X", payment := "2", date := "2024-01-02" }],
        editingId := none } := by decide

/-- C3 (amended): after `deleteContribution id` no record with that id
remains, either in the stored collection or in the sorted listing, and a
second `deleteContribution` with the same id is a silent no-op leaving the
state unchanged — it does not fail, because the operation has no failure
outcome. -/
theorem C3_remove_then_silent_noop (s : AppState) (rid : String) :
    ((deleteContribution rid s).contributions.all (fun c => c.id != rid) = true) ∧
    ((sortedContributions (deleteContribution rid s).contributions).all
      (fun c => c.id != rid) = true) ∧
    deleteContribution rid (deleteContribution rid s) = deleteContribution rid s := by
  refine ⟨filter_all_ne s.contributions rid,
    sorted_all_ne _ rid (filter_all_ne s.contributions rid), ?_⟩
  simp only [deleteContribution]
  have hf : (s.contributions.filter (fun item => item.id != rid)).filter
      (fun item => item.id != rid) = s.contributions.filter (fun item => item.id != rid) :=
    List.filter_eq_self.mpr (fun a ha => (List.mem_filter.mp ha).2)
  exact congrArg (fun x => { s with contributions := x }) hf

/-- C4: the claim states every add gets an id distinct from all prior ids,
even for two adds in immediate succession.  Counterexample: ids come from
`Date.now().toString()`, so two adds within the same millisecond (same
`nowMs`, here 5) produce the same id `"5"` twice. -/
theorem C4_counterexample :
    ((addOrUpdateContribution 5 ("2024-01-02")
        (setPayment ("2") (setName ("B")
          (addOrUpdateContribution 5 ("2024-01-02")
            { name := "A", payment := "1", date := "2024-01-01", contributions := [],
              editingId := none })))).contributions.map Contribution.id) = ["5", "5"] ∧
    ¬ ((addOrUpdateContribution 5 ("2024-01-02")
        (setPayment ("2") (setName ("B")
          (addOrUpdateContribution 5 ("2024-01-02")
            { name := "A", payment := "1", date := "2024-01-01", contributions := [],
              editingId := none })))).contributions.map Contribution.id).Nodup := by
  refine ⟨by decide, by decide⟩

/-- C4 (amended): a valid add appends exactly one record carrying the given
name, amount and date, with id `Date.now().toString()`; the new id is
distinct from all existing ids — and id-uniqueness of the collection is
preserved — only under the assumption that the millisecond timestamp
differs from every previously generated id (true for adds at distinct
timestamps, false for two adds within one millisecond). -/
theorem C4_add_appends_clock_id (nowMs : Nat) (today : String) (s : AppState)
    (h1 : s.editingId = none) (h2 : s.name ≠ "") (h3 : s.payment ≠ "") :
    (addOrUpdateContribution nowMs today s).contributions =
      s.contributions ++
        [{ id := toString nowMs, name := s.name, payment := s.payment,
           date := s.date }] ∧
    (toString nowMs ∉ s.contributions.map Contribution.id →
      (s.contributions.map Contribution.id).Nodup →
      ((addOrUpdateContribution nowMs today s).contributions.map Contribution.id).Nodup) := by
  have happ := add_appends nowMs today s h1 h2 h3
  refine ⟨happ, ?_⟩
  intro hfresh hnodup
  rw [happ, List.map_append, List.nodup_append]
  refine ⟨hnodup, by simp, ?_⟩
  intro a ha hmem
  simp only [List.map_cons, List.map_nil, List.mem_singleton] at hmem
  subst hmem
  exact hfresh ha

/-- C4 witness: a fresh-timestamp add onto a one-record collection appends
the record and keeps the ids nodup. -/
theorem C4_add_appends_clock_id_witness :
    (addOrUpdateContribution 5 ("2024-01-02")
      { name := "B", payment := "2", date := "2024-01-01",
        contributions := [{ id := "1", name := "A", payment := "1", date := "2024-01-01" }],
        editingId := none }).contributions =
      [{ id := "1", name := "A", payment := "1", date := "2024-01-01" }] ++
        [{ id := toString 5, name := "B", payment := "2", date := "2024-01-01" }] ∧
    ((addOrUpdateContribution 5 ("2024-01-02")
      { name := "B", payment := "2", date := "2024-01-01",
        contributions := [{ id := "1", name := "A", payment := "1", date := "2024-01-01" }],
        editingId := none }).contributions.map Contribution.id).Nodup := by
  have h := C4_add_appends_clock_id 5 ("2024-01-02")
    { name := "B", payment := "2", date := "2024-01-01",
      contributions := [{ id := "1", name := "A", payment := "1", date := "2024-01-01" }],
      editingId := none } rfl (by decide) (by decide)
  exact ⟨h.1, h.2 (by decide) (by decide)⟩

/-- C5: `sortedContributions` is sorted by date descending (every later
element's date is ≤ every earlier element's date), it is stable (for each
date value, the records carrying it appear exactly as in insertion order),
and the spec's concrete example holds: inserting A(2024-01-05),
B(2024-01-10), C(2024-01-05) in that order lists [B, A, C]. -/
theorem C5_sorted_desc_stable :
    (∀ l : List Contribution,
      (sortedContributions l).Pairwise (fun a b => b.date ≤ a.date)) ∧
    (∀ (l : List Contribution) (d : String),
      (sortedContributions l).filter (fun c => c.date == d) =
        l.filter (fun c => c.date == d)) ∧
    sortedContributions
      [{ id := "1", name := "A", payment := "1", date := "2024-01-05" },
       { id := "2", name := "B", payment := "1", date := "2024-01-10" },
       { id := "3", name := "C", payment := "1", date := "2024-01-05" }] =
      [{ id := "2", name := "B", payment := "1", date := "2024-01-10" },
       { id := "1", name := "A", payment := "1", date := "2024-01-05" },
       { id := "3", name := "C", payment := "1", date := "2024-01-05" }] := by
  refine ⟨sortedContributions_pairwise, sortedContributions_filter, ?_⟩
  simp [sortedContributions, orderedInsertDesc]
  decide

theorem pow2_eq (n : Nat) : pow2 n = 2 ^ n := by
  show 4294967296 ^ (n / 32) * 2 ^ (n % 32) = 2 ^ n
  rw [show (4294967296 : Nat) = 2 ^ 32 from rfl, ← pow_mul, ← pow_add, Nat.div_add_mod]

set_option maxRecDepth 4000 in
theorem log2Byte_spec :
    ∀ n, 1 ≤ n → n < 256 → 2 ^ log2Byte n ≤ n ∧ n < 2 ^ (log2Byte n + 1) := by
  decide

theorem log2Under32_spec :
    ∀ n, 1 ≤ n → n < 4294967296 →
      2 ^ log2Under32 n ≤ n ∧ n < 2 ^ (log2Under32 n + 1) := by
  intro n h1 h2
  by_cases c1 : n < 256
  · simpa [log2Under32, c1] using log2Byte_spec n h1 c1
  · by_cases c2 : n < 65536
    · have hq1 : 1 ≤ n / 256 := by omega
      have hq2 : n / 256 < 256 := by omega
      have hs := log2Byte_spec (n / 256) hq1 hq2
      simp only [log2Under32, if_neg c1, if_pos c2]
      have e1 : (2 : Nat) ^ (log2Byte (n / 256) + 8) = 2 ^ log2Byte (n / 256) * 256 := by
        rw [pow_add]; norm_num
      have e2 : (2 : Nat) ^ (log2Byte (n / 256) + 8 + 1) =
          2 ^ (log2Byte (n / 256) + 1) * 256 := by
        rw [pow_add, pow_add, pow_add]; ring
      rw [e1, e2]
      omega
    · by_cases c3 : n < 16777216
      · have hq1 : 1 ≤ n / 65536 := by omega
        have hq2 : n / 65536 < 256 := by omega
        have hs := log2Byte_spec (n / 65536) hq1 hq2
        simp only [log2Under32, if_neg c1, if_neg c2, if_pos c3]
        have e1 : (2 : Nat) ^ (log2Byte (n / 65536) + 16) =
            2 ^ log2Byte (n / 65536) * 65536 := by
          rw [pow_add]; norm_num
        have e2 : (2 : Nat) ^ (log2Byte (n / 65536) + 16 + 1) =
            2 ^ (log2Byte (n / 65536) + 1) * 65536 := by
          rw [pow_add, pow_add, pow_add]; ring
        rw [e1, e2]
        omega
      · have hq1 : 1 ≤ n / 16777216 := by omega
        have hq2 : n / 16777216 < 256 := by omega
        have hs := log2Byte_spec (n / 16777216) hq1 hq2
        simp only [log2Under32, if_neg c1, if_neg c2, if_neg c3]
        have e1 : (2 : Nat) ^ (log2Byte (n / 16777216) + 24) =
            2 ^ log2Byte (n / 16777216) * 16777216 := by
          rw [pow_add]; norm_num
        have e2 : (2 : Nat) ^ (log2Byte (n / 16777216) + 24 + 1) =
            2 ^ (log2Byte (n / 16777216) + 1) * 16777216 := by
          rw [pow_add, pow_add, pow_add]; ring
        rw [e1, e2]
        omega

theorem log2Fuel_spec :
    ∀ (fuel n : Nat), 1 ≤ n → n ≤ fuel →
      2 ^ log2Fuel fuel n ≤ n ∧ n < 2 ^ (log2Fuel fuel n + 1) := by
  intro fuel
  induction fuel with
  | zero => intro n h1 h2; omega
  | succ fuel ih =>
    intro n h1 h2
    by_cases hc : n < 4294967296
    · simpa [log2Fuel, hc] using log2Under32_spec n h1 hc
    · have hq1 : 1 ≤ n / 4294967296 := by omega
      have hq2 : n / 4294967296 ≤ fuel := by omega
      have hs := ih (n / 4294967296) hq1 hq2
      simp only [log2Fuel, if_neg hc]
      have e1 : (2 : Nat) ^ (log2Fuel fuel (n / 4294967296) + 32) =
          2 ^ log2Fuel fuel (n / 4294967296) * 4294967296 := by
        rw [pow_add]; norm_num
      have e2 : (2 : Nat) ^ (log2Fuel fuel (n / 4294967296) + 32 + 1) =
          2 ^ (log2Fuel fuel (n / 4294967296) + 1) * 4294967296 := by
        rw [pow_add, pow_add, pow_add]; ring
      rw [e1, e2]
      omega

theorem natLog2_spec (n : Nat) (h : 1 ≤ n) :
    2 ^ natLog2 n ≤ n ∧ n < 2 ^ (natLog2 n + 1) :=
  log2Fuel_spec n n h le_rfl

theorem jsAdd_comm (a b : JsNum) : a.add b = b.add a := by
  cases a <;> cases b <;> simp [JsNum.add, Int.add_comm]

theorem totalPayment_eq_payments_foldl (l : List Contribution) :
    totalPayment l =
      (l.map Contribution.payment).foldl
        (fun sum p => sum.add (jsParseFloat p)) (JsNum.num 0) := by
  rw [List.foldl_map]
  rfl

set_option maxRecDepth 100000 in
/-- C6: the claim states that `total()` equals the sum of the amounts
(rounded to two decimals for display) and depends only on the multiset of
current amounts, not on the order in which operations occurred.
Counterexample: the total is an IEEE-754 double left fold, and double
addition rounds every partial sum, so it is not associative.  Adding
"1e20", "1", "-1e20" in that order gives total 0 (the 1 is absorbed into
1e20's rounding), while adding "1e20", "-1e20", "1" — the same multiset of
amounts — gives total 1 (`JsNum.num (pow2 1074)` is the double 1.0 on the
`2^-1074` grid); the displays differ as "0.00" vs "1.00", and neither run
of the first collection equals its exact decimal sum 1. -/
theorem C6_counterexample :
    List.Perm (addSeqA.contributions.map Contribution.payment)
      (addSeqB.contributions.map Contribution.payment) ∧
    totalPayment addSeqA.contributions = JsNum.num 0 ∧
    totalPayment addSeqB.contributions = JsNum.num ((pow2 1074 : Nat) : Int) ∧
    displayedTotalCents addSeqA.contributions = some 0 ∧
    displayedTotalCents addSeqB.contributions = some 100 := by
  refine ⟨by decide, by decide, by decide, by decide, by decide⟩

/-- C6 (amended): `total()` is the left-to-right IEEE-754 double fold of
`parseFloat` over the stored amounts.  It depends only on the sequence of
amount strings in collection (insertion) order — not on names, dates, ids
or anything else — and double addition is commutative (so exchanging the
two operands of any single addition cannot change it); but because each
partial sum is rounded, the total is not in general a function of the
multiset of amounts alone, and need not equal the exact decimal sum. -/
theorem C6_total_float_fold :
    (∀ l1 l2 : List Contribution,
      l1.map Contribution.payment = l2.map Contribution.payment →
      totalPayment l1 = totalPayment l2) ∧
    (∀ a b : JsNum, a.add b = b.add a) := by
  constructor
  · intro l1 l2 h
    rw [totalPayment_eq_payments_foldl, totalPayment_eq_payments_foldl, h]
  · exact jsAdd_comm

/-- C6 witness: two collections with the same amounts in the same order but
different names, ids and dates have the same total, and a concrete pair of
doubles adds commutatively. -/
theorem C6_total_float_fold_witness :
    totalPayment
        [{ id := "1", name := "Alice", payment := "50.00", date := "2024-03-01" },
         { id := "2", name := "Bob", payment := "25.50", date := "2024-02-15" }] =
      totalPayment
        [{ id := "9", name := "Alicia", payment := "50.00", date := "2024-03-02" },
         { id := "8", name := "Bo", payment := "25.50", date := "2024-02-16" }] ∧
    (JsNum.num 3).add (JsNum.num 5) = (JsNum.num 5).add (JsNum.num 3) :=
  ⟨C6_total_float_fold.1 _ _ rfl, C6_total_float_fold.2 _ _⟩

/-- C7: persistence round-trip — serializing any collection with the save
effect and deserializing it with the load effect reproduces the collection
field-for-field, in the same order. -/
theorem C7_persistence_roundtrip (l : List Contribution) :
    parseContributions (stringifyContributions l) = some l ∧
    loadContributions (saveContributions l) = l :=
  ⟨parseContributions_stringify l, loadContributions_save l⟩

/-- C8: a valid update with an id present in the collection keeps the length,
replaces exactly the fields of the records carrying that id (their id
unchanged), and leaves every record with a different id exactly as it was,
position by position. -/
theorem C8_update_frame (nowMs : Nat) (today : String) (s : AppState) (eid : String)
    (h1 : s.editingId = some eid) (h2 : s.name ≠ "") (h3 : s.payment ≠ "")
    (_h4 : eid ∈ s.contributions.map Contribution.id) :
    (addOrUpdateContribution nowMs today s).contributions.length =
      s.contributions.length ∧
    ∀ (i : Nat) (hi : i < s.contributions.length)
      (hi' : i < (addOrUpdateContribution nowMs today s).contributions.length),
      ((s.contributions[i].id ≠ eid →
        (addOrUpdateContribution nowMs today s).contributions[i] = s.contributions[i]) ∧
      (s.contributions[i].id = eid →
        (addOrUpdateContribution nowMs today s).contributions[i] =
          { id := s.contributions[i].id, name := s.name, payment := s.payment,
            date := s.date })) := by
  have hc := (update_contributions_map nowMs today s eid h1 h2 h3).1
  constructor
  · rw [hc, List.length_map]
  · intro i hi hi'
    constructor
    · intro hne
      simp only [hc, List.getElem_map]
      rw [if_neg hne]
    · intro heq
      simp only [hc, List.getElem_map]
      rw [if_pos heq]

/-- C8 witness: updating the record with id "1" in a two-record collection
rewrites its fields and leaves the record with id "2" untouched. -/
theorem C8_update_frame_witness :
    (addOrUpdateContribution 0 ("2024-02-03")
      { name := "N", payment := "9", date := "2024-02-02",
        contributions := [{ id := "1", name := "A", payment := "1", date := "2024-01-01" },
          { id := "2", name := "B", payment := "2", date := "2024-01-02" }],
        editingId := some ("1") }).contributions =
      [{ id := "1", name := "N", payment := "9", date := "2024-02-02" },
       { id := "2", name := "B", payment := "2", date := "2024-01-02" }] := by
  have h := C8_update_frame 0 ("2024-02-03")
    { name := "N", payment := "9", date := "2024-02-02",
      contributions := [{ id := "1", name := "A", payment := "1", date := "2024-01-01" },
        { id := "2", name := "B", payment := "2", date := "2024-01-02" }],
      editingId := some ("1") } ("1") rfl (by decide) (by decide) (by decide)
  apply List.ext_get
  · rw [h.1]
    rfl
  · intro n h1n h2n
    have hn2 : n < 2 := by
      have := h1n
      rw [h.1] at this
      simpa using this
    simp only [List.get_eq_getElem]
    interval_cases n
    · have hu := (h.2 0 (by decide) (by simpa using h1n)).2 (by decide)
      simpa using hu
    · have hu := (h.2 1 (by decide) (by simpa using h1n)).1 (by decide)
      simpa using hu

/-- C9: because add accepts any non-empty amount string, a record whose
amount does not parse as a number is reachable from the initial state (set
the inputs, press add), and `totalPayment` on such a collection is `NaN`. -/
theorem C9_nan_total_reachable (today d2 : String) :
    (∃ c, c ∈ (addOrUpdateContribution 0 d2 (setPayment ("abc") (setName ("A")
        (initialState today)))).contributions ∧ jsParseFloat c.payment = JsNum.nan) ∧
    totalPayment (addOrUpdateContribution 0 d2 (setPayment ("abc") (setName ("A")
        (initialState today)))).contributions = JsNum.nan := by
  have hc : (addOrUpdateContribution 0 d2 (setPayment ("abc") (setName ("A")
      (initialState today)))).contributions =
      [{ id := "0", name := "A", payment := "abc", date := today }] := rfl
  have habc : jsParseFloat ("abc") = JsNum.nan := by decide
  constructor
  · refine ⟨{ id := "0", name := "A", payment := "abc", date := today }, ?_, habc⟩
    rw [hc]
    exact List.mem_singleton.mpr rfl
  · rw [hc]
    show (JsNum.num 0).add (jsParseFloat ("abc")) = JsNum.nan
    rw [habc]
    rfl

/-- C10: deleting the record that is currently being edited leaves the
editing reference dangling (delete touches only the collection); a
subsequent update submission with that dangling id leaves the collection
unchanged — no record is created or resurrected — and only then clears the
editing reference. -/
theorem C10_delete_keeps_editing (nowMs : Nat) (today : String) (s : AppState) (eid : String)
    (h1 : s.editingId = some eid) (h2 : s.name ≠ "") (h3 : s.payment ≠ "") :
    (deleteContribution eid s).editingId = some eid ∧
    (addOrUpdateContribution nowMs today (deleteContribution eid s)).contributions =
      (deleteContribution eid s).contributions ∧
    (addOrUpdateContribution nowMs today (deleteContribution eid s)).editingId = none := by
  have hd : (deleteContribution eid s).editingId = some eid := h1
  refine ⟨hd, ?_, ?_⟩
  · exact (update_missing_id nowMs today _ eid hd
      (not_mem_filter_ids s.contributions eid) h2 h3).1
  · exact (update_missing_id nowMs today _ eid hd
      (not_mem_filter_ids s.contributions eid) h2 h3).2

/-- C10 witness: delete the edited record "1", then submit the update. -/
theorem C10_delete_keeps_editing_witness :
    (deleteContribution ("1")
      { name := "X", payment := "2", date := "2024-01-02",
        contributions := [{ id := "1", name := "X", payment := "2", date := "2024-01-02" }],
        editingId := some ("1") }).editingId = some ("1") ∧
    (addOrUpdateContribution 9 ("2024-01-03") (deleteContribution ("1")
      { name := "X", payment := "2", date := "2024-01-02",
        contributions := [{ id := "1", name := "X", payment := "2", date := "2024-01-02" }],
        editingId := some ("1") })).contributions =
      (deleteContribution ("1")
      { name := "X", payment := "2", date := "2024-01-02",
        contributions := [{ id := "1", name := "X", payment := "2", date := "2024-01-02" }],
        editingId := some ("1") }).contributions ∧
    (addOrUpdateContribution 9 ("2024-01-03") (deleteContribution ("1")
      { name := "X", payment := "2", date := "2024-01-02",
        contributions := [{ id := "1", name := "X", payment := "2", date := "2024-01-02" }],
        editingId := some ("1") })).editingId = none :=
  C10_delete_keeps_editing 9 ("2024-01-03")
    { name := "X", payment := "2", date := "2024-01-02",
      contributions := [{ id := "1", name := "X", payment := "2", date := "2024-01-02" }],
      editingId := some ("1") } ("1") rfl (by decide) (by decide)
